import Mathlib

/-!
# Verification of the compact JWT token codec (`src/token.rs`)

Shallow embedding of the token codec of `rust-jwt-simple`: the three-segment
compact token builder (`Token::build`), the verifier (`Token::verify`), the
header-only metadata extractor (`Token::decode_metadata`) and the unsigned
metadata builder (`NewTokenMetadata`), together with concrete models of the
external base64url-no-padding and hex codecs (`ct_codecs`).

Rust strings are modelled as `List Char`; `str::len` (a UTF-8 byte count) is
`utf8Len`.  JSON (de)serialization (`serde_json`) is an external collaborator
and is passed in as an explicit function parameter, exactly as the
signing/verification closures are in the source.
-/

set_option maxHeartbeats 1000000

namespace JwtSimple

/-- Rust `&str` contents, modelled as a list of characters. -/
abbrev Str := List Char

/-- Rust `str::len`: the UTF-8 byte length of a string. -/
def utf8Len (s : Str) : Nat := (s.map Char.utf8Size).sum

/-- Rust `str::split('.')`: splits a string on `'.'`; always returns at least
one (possibly empty) segment, like the Rust iterator. -/
def splitDot : Str → List Str
  | [] => [[]]
  | c :: rest =>
    if c = '.' then [] :: splitDot rest
    else
      match splitDot rest with
      | [] => [[c]]
      | s :: ss => (c :: s) :: ss

/-- Joins segments with `'.'`; inverse of `splitDot`. -/
def joinDot : List Str → Str
  | [] => []
  | [s] => s
  | s :: rest => s ++ '.' :: joinDot rest

/-- Rust byte-index slicing `&token[..n]`, at character granularity: takes
characters as long as their accumulated UTF-8 size fits in `n` bytes. -/
def takeBytes : Nat → Str → Str
  | _, [] => []
  | n, c :: rest => if c.utf8Size ≤ n then c :: takeBytes (n - c.utf8Size) rest else []

/-! ## The external `ct_codecs` collaborators: base64url (no padding) and hex -/

/-- The URL-safe base64 alphabet used by `ct_codecs::Base64UrlSafeNoPadding`. -/
def b64Alphabet : Str :=
  "ABCDEFGHIJKLMNOPQRSTUVWXYZabcdefghijklmnopqrstuvwxyz0123456789-_".toList

/-- The alphabet character for a 6-bit value. -/
def b64Char (n : Nat) : Char := b64Alphabet.getD n 'A'

/-- The 6-bit value of an alphabet character, if any. -/
def b64Val (c : Char) : Option Nat :=
  let i := b64Alphabet.indexOf c
  if i < 64 then some i else none

/-- Base64url-no-padding encoding of a byte sequence
(`Base64UrlSafeNoPadding::encode_to_string`). -/
def b64Encode : List Nat → Str
  | [] => []
  | [a] => [b64Char (a / 4), b64Char (a % 4 * 16)]
  | [a, b] => [b64Char (a / 4), b64Char (a % 4 * 16 + b / 16), b64Char (b % 16 * 4)]
  | a :: b :: c :: rest =>
      b64Char (a / 4) :: b64Char (a % 4 * 16 + b / 16) ::
        b64Char (b % 16 * 4 + c / 64) :: b64Char (c % 64) :: b64Encode rest

/-- Base64url-no-padding decoding of a string to a byte sequence
(`Base64UrlSafeNoPadding::decode_to_vec`); `none` on malformed input. -/
def b64Decode : Str → Option (List Nat)
  | [] => some []
  | [_] => none
  | [c1, c2] => do
      let a ← b64Val c1
      let b ← b64Val c2
      some [a * 4 + b / 16]
  | [c1, c2, c3] => do
      let a ← b64Val c1
      let b ← b64Val c2
      let c ← b64Val c3
      some [a * 4 + b / 16, b % 16 * 16 + c / 4]
  | c1 :: c2 :: c3 :: c4 :: rest => do
      let a ← b64Val c1
      let b ← b64Val c2
      let c ← b64Val c3
      let d ← b64Val c4
      let r ← b64Decode rest
      some ((a * 4 + b / 16) :: (b % 16 * 16 + c / 4) :: (c % 4 * 64 + d) :: r)

/-- The value of one hex digit (`ct_codecs::Hex` accepts both cases). -/
def hexVal (c : Char) : Option Nat :=
  if '0' ≤ c ∧ c ≤ '9' then some (c.toNat - '0'.toNat)
  else if 'a' ≤ c ∧ c ≤ 'f' then some (c.toNat - 'a'.toNat + 10)
  else if 'A' ≤ c ∧ c ≤ 'F' then some (c.toNat - 'A'.toNat + 10)
  else none

/-- Hex decoding (`ct_codecs::Hex::decode`): pairs of hex digits; `none` on an
odd length or a non-hex character. -/
def hexDecode : Str → Option (List Nat)
  | [] => some []
  | [_] => none
  | c1 :: c2 :: rest => do
      let hi ← hexVal c1
      let lo ← hexVal c2
      let r ← hexDecode rest
      some ((hi * 16 + lo) :: r)

/-! ## Error taxonomy -/

/-- The `JWTError` variants of `error.rs` reached from `token.rs` (the name
`InvalidCertThumprint` keeps the source's spelling). -/
inductive JWTError where
  | CompactEncodingError
  | HeaderTooLarge
  | NotJWT
  | AlgorithmMismatch
  | KeyIdentifierMismatch
  | MissingJWTKeyIdentifier
  | InvalidCertThumprint
deriving DecidableEq, Repr

/-- The crate-level `Error`: a `JWTError`, an encoding-layer failure
(`ct_codecs`), a serialization failure (`serde_json`), or an opaque error
produced by a caller-supplied signing/verification function. -/
inductive Error where
  | jwt : JWTError → Error
  | encoding : Error
  | serialization : Error
  | custom : Nat → Error
deriving DecidableEq, Repr

instance {ε α : Type} [DecidableEq ε] [DecidableEq α] : DecidableEq (Except ε α) := by
  intro a b
  cases a <;> cases b
  case error.error e f =>
    exact if h : e = f then .isTrue (by rw [h]) else .isFalse (by simp [h])
  case ok.ok x y =>
    exact if h : x = y then .isTrue (by rw [h]) else .isFalse (by simp [h])
  case error.ok e y => exact .isFalse (by simp)
  case ok.error x f => exact .isFalse (by simp)

/-- Rust's `ok_or`: turns an `Option` into an `Except` with the given error. -/
def ofOption {α : Type} (o : Option α) (e : Error) : Except Error α :=
  match o with
  | some a => .ok a
  | none => .error e

/-- Rust's `ensure!(cond, err)`. -/
def ensureP (p : Prop) [Decidable p] (e : Error) : Except Error Unit :=
  if p then .ok () else .error e

/-! ## Data model -/

/-- Modelled from the spec: the header record of `jwt_header.rs` (§3 of the
spec); its field set is also fully visible from `token.rs` (the
`TokenMetadata` accessors and the `NewTokenMetadata` setters). Every field
defaults like Rust `Default` (empty algorithm, all options absent). -/
structure JWTHeader where
  algorithm : Str := []
  content_type : Option Str := none
  signature_type : Option Str := none
  key_id : Option Str := none
  critical : Option (List Str) := none
  certificate_chain : Option (List Str) := none
  key_set_url : Option Str := none
  public_key : Option Str := none
  certificate_url : Option Str := none
  certificate_sha1_thumbprint : Option Str := none
  certificate_sha256_thumbprint : Option Str := none
deriving DecidableEq, Repr

instance : Inhabited JWTHeader := ⟨{}⟩

/-- JWT token information available before signature/tag verification. -/
structure TokenMetadata where
  jwt_header : JWTHeader
deriving DecidableEq, Repr

/-- Modelled from the spec: of `VerificationOptions` (§3), only
`required_key_id` is consulted by the token codec itself; the remaining policy
fields are only read by the (caller-parameterized) claims `validate`. -/
structure VerificationOptions where
  required_key_id : Option Str := none
deriving DecidableEq, Repr

instance : Inhabited VerificationOptions := ⟨{}⟩

/-- Maximum encoded header length accepted: `MAX_HEADER_LENGTH` in the source. -/
def MAX_HEADER_LENGTH : Nat := 8192

/-- The `signature_type` check of `Token::verify`: when present it must be the
literal `"JWT"`. -/
def sigCheck (h : JWTHeader) : Except Error Unit :=
  match h.signature_type with
  | some st => ensureP (st = "JWT".toList) (.jwt .NotJWT)
  | none => .ok ()

/-- The `required_key_id` check of `Token::verify`. -/
def keyIdCheck (h : JWTHeader) (options : VerificationOptions) : Except Error Unit :=
  match options.required_key_id with
  | some required =>
    match h.key_id with
    | some kid => ensureP (kid = required) (.jwt .KeyIdentifierMismatch)
    | none => .error (.jwt .MissingJWTKeyIdentifier)
  | none => .ok ()

/-- The post-authentication phase of `Token::verify`: base64url-decode the
claims segment, deserialize it, and validate the claims. -/
def verifyTail {C : Type} (claimsFromJson : List Nat → Option C)
    (validate : C → VerificationOptions → Except Error Unit)
    (options : VerificationOptions) (claims_b64 : Str) : Except Error C := do
  let claimsBytes ← ofOption (b64Decode claims_b64) .encoding
  let claims ← ofOption (claimsFromJson claimsBytes) .serialization
  validate claims options
  pure claims

namespace Token

/-- `Token::build` of `token.rs`: serialize the header and the claims (via the
externally supplied `serde_json` serializers), base64url-encode both, join
with `'.'`, sign that exact string, and append the base64url-encoded tag. -/
def build {C : Type} (headerToJson : JWTHeader → Except Error (List Nat))
    (claimsToJson : C → Except Error (List Nat))
    (jwt_header : JWTHeader) (claims : C)
    (authentication_or_signature_fn : Str → Except Error (List Nat)) :
    Except Error Str := do
  let jwt_header_json ← headerToJson jwt_header
  let claims_json ← claimsToJson claims
  let authenticated := b64Encode jwt_header_json ++ '.' :: b64Encode claims_json
  let authentication_tag_or_signature ← authentication_or_signature_fn authenticated
  pure (authenticated ++ '.' :: b64Encode authentication_tag_or_signature)

/-- `Token::verify` of `token.rs`, statement for statement: split on `'.'`,
size-guard the first segment, require exactly three segments, decode and
deserialize the header, check `signature_type`, algorithm and key id, decode
the tag, slice the authenticated byte range out of the original token, call
the caller-supplied verification function, and only then decode, deserialize
and validate the claims. -/
def verify {C : Type} (headerFromJson : List Nat → Option JWTHeader)
    (claimsFromJson : List Nat → Option C)
    (validate : C → VerificationOptions → Except Error Unit)
    (jwt_alg_name : Str) (token : Str) (options : Option VerificationOptions)
    (authentication_or_signature_fn : Str → List Nat → Except Error Unit) :
    Except Error C := do
  let options := options.getD {}
  let parts := splitDot token
  let jwt_header_b64 ← ofOption parts[0]? (.jwt .CompactEncodingError)
  ensureP (utf8Len jwt_header_b64 ≤ MAX_HEADER_LENGTH) (.jwt .HeaderTooLarge)
  let claims_b64 ← ofOption parts[1]? (.jwt .CompactEncodingError)
  let authentication_tag_b64 ← ofOption parts[2]? (.jwt .CompactEncodingError)
  ensureP (parts[3]? = none) (.jwt .CompactEncodingError)
  let headerBytes ← ofOption (b64Decode jwt_header_b64) .encoding
  let jwt_header ← ofOption (headerFromJson headerBytes) .serialization
  sigCheck jwt_header
  ensureP (jwt_header.algorithm = jwt_alg_name) (.jwt .AlgorithmMismatch)
  keyIdCheck jwt_header options
  let authentication_tag ← ofOption (b64Decode authentication_tag_b64) .encoding
  let authenticated := takeBytes (utf8Len jwt_header_b64 + 1 + utf8Len claims_b64) token
  authentication_or_signature_fn authenticated authentication_tag
  verifyTail claimsFromJson validate options claims_b64

/-- `Token::decode_metadata` of `token.rs`: take only the first dot-separated
segment, size-guard it, decode and deserialize it. -/
def decode_metadata (headerFromJson : List Nat → Option JWTHeader) (token : Str) :
    Except Error TokenMetadata := do
  let parts := splitDot token
  let jwt_header_b64 ← ofOption parts[0]? (.jwt .CompactEncodingError)
  ensureP (utf8Len jwt_header_b64 ≤ MAX_HEADER_LENGTH) (.jwt .HeaderTooLarge)
  let headerBytes ← ofOption (b64Decode jwt_header_b64) .encoding
  let jwt_header ← ofOption (headerFromJson headerBytes) .serialization
  pure { jwt_header := jwt_header }

end Token

/-- Unsigned metadata to be attached to a new token. -/
structure NewTokenMetadata where
  jwt_header : JWTHeader
deriving DecidableEq, Repr

/-- `NewTokenMetadata::new`. -/
def NewTokenMetadata.new (algorithm : Str) (key_id : Option Str) : NewTokenMetadata :=
  { jwt_header := { algorithm := algorithm, key_id := key_id } }

/-- A `ct_codecs` decode into a fixed-size buffer: fails (`Overflow`) when the
decoded bytes exceed the buffer, otherwise returns the written bytes. -/
def decodeIntoBuf (cap : Nat) (decoded : Option (List Nat)) : Except Error (List Nat) :=
  match decoded with
  | none => .error .encoding
  | some bs => if bs.length ≤ cap then .ok bs else .error .encoding

/-- `NewTokenMetadata::with_certificate_sha1_thumbprint`: a 40-byte input is
hex-decoded into a 20-byte buffer and re-encoded as base64url; any other input
is base64url-decoded into the same buffer and stored verbatim; a decoded
length other than 20 is rejected. -/
def NewTokenMetadata.with_certificate_sha1_thumbprint (self : NewTokenMetadata)
    (certificate_sha1_thumbprint : Str) : Except Error NewTokenMetadata := do
  let thumbprint := certificate_sha1_thumbprint
  if utf8Len thumbprint = 40 then do
    let bin ← decodeIntoBuf 20 (hexDecode thumbprint)
    ensureP (bin.length = 20) (.jwt .InvalidCertThumprint)
    let thumbprint2 := b64Encode bin
    pure { self with
      jwt_header := { self.jwt_header with certificate_sha1_thumbprint := some thumbprint2 } }
  else do
    let bin ← decodeIntoBuf 20 (b64Decode thumbprint)
    ensureP (bin.length = 20) (.jwt .InvalidCertThumprint)
    pure { self with
      jwt_header := { self.jwt_header with certificate_sha1_thumbprint := some thumbprint } }

/-- `NewTokenMetadata::with_certificate_sha256_thumbprint`, exactly as in the
source — including the fact that both branches store the result into the
`certificate_sha1_thumbprint` field (`token.rs` lines 242 and 249). -/
def NewTokenMetadata.with_certificate_sha256_thumbprint (self : NewTokenMetadata)
    (certificate_sha256_thumbprint : Str) : Except Error NewTokenMetadata := do
  let thumbprint := certificate_sha256_thumbprint
  if utf8Len thumbprint = 64 then do
    let bin ← decodeIntoBuf 32 (hexDecode thumbprint)
    ensureP (bin.length = 32) (.jwt .InvalidCertThumprint)
    let thumbprint2 := b64Encode bin
    pure { self with
      jwt_header := { self.jwt_header with certificate_sha1_thumbprint := some thumbprint2 } }
  else do
    let bin ← decodeIntoBuf 32 (b64Decode thumbprint)
    ensureP (bin.length = 32) (.jwt .InvalidCertThumprint)
    pure { self with
      jwt_header := { self.jwt_header with certificate_sha1_thumbprint := some thumbprint } }

/-! ## Monad and option plumbing lemmas -/

theorem exc_bind_ok {ε α β : Type} (a : α) (f : α → Except ε β) :
    (Except.ok a >>= f : Except ε β) = f a := rfl

theorem exc_bind_err {ε α β : Type} (e : ε) (f : α → Except ε β) :
    (Except.error e >>= f : Except ε β) = Except.error e := rfl

theorem opt_bind_some {α β : Type} (a : α) (f : α → Option β) :
    (some a >>= f : Option β) = f a := rfl

theorem opt_bind_none {α β : Type} (f : α → Option β) :
    (none >>= f : Option β) = none := rfl

theorem ofOption_some {α : Type} (a : α) (e : Error) : ofOption (some a) e = .ok a := rfl

theorem ofOption_none {α : Type} (e : Error) : ofOption (none : Option α) e = .error e := rfl

theorem ensureP_pos {p : Prop} [Decidable p] (e : Error) (hp : p) : ensureP p e = .ok () := by
  simp [ensureP, hp]

theorem ensureP_neg {p : Prop} [Decidable p] (e : Error) (hp : ¬p) : ensureP p e = .error e := by
  simp [ensureP, hp]

/-! ## Structure of `splitDot` -/

theorem splitDot_ne_nil (l : Str) : splitDot l ≠ [] := by
  cases l with
  | nil => simp [splitDot]
  | cons c rest =>
    simp only [splitDot]
    split
    · simp
    · split <;> simp

theorem splitDot_cons_dot (l : Str) : splitDot ('.' :: l) = [] :: splitDot l := by
  simp [splitDot]

theorem splitDot_no_dot (l : Str) (h : '.' ∉ l) : splitDot l = [l] := by
  induction l with
  | nil => rfl
  | cons c rest ih =>
    have hc : ¬(c = '.') := fun hh => h (by simp [hh])
    have hr : '.' ∉ rest := fun hm => h (by simp [hm])
    simp [splitDot, hc, ih hr]

theorem splitDot_append_dot (a r : Str) (h : '.' ∉ a) :
    splitDot (a ++ '.' :: r) = a :: splitDot r := by
  induction a with
  | nil => simp [splitDot]
  | cons c rest ih =>
    have hc : ¬(c = '.') := fun hh => h (by simp [hh])
    have hr : '.' ∉ rest := fun hm => h (by simp [hm])
    simp [splitDot, hc, ih hr]

theorem splitDot_head_no_dot (l : Str) : ∀ h t, splitDot l = h :: t → '.' ∉ h := by
  induction l with
  | nil =>
    intro h t he
    simp only [splitDot] at he
    injection he with h1 h2
    rw [← h1]
    simp
  | cons c rest ih =>
    intro h t he
    by_cases hc : c = '.'
    · subst hc
      rw [splitDot_cons_dot] at he
      have : h = [] := (List.cons.injEq _ _ _ _ ▸ he).1.symm
      simp [this]
    · simp only [splitDot, if_neg hc] at he
      cases hsr : splitDot rest with
      | nil => exact absurd hsr (splitDot_ne_nil rest)
      | cons s ss =>
        rw [hsr] at he
        have h1 : h = c :: s := ((List.cons.injEq _ _ _ _).mp he).1.symm
        have h2 : '.' ∉ s := ih s ss hsr
        intro hmem
        rw [h1] at hmem
        rcases List.mem_cons.mp hmem with h3 | h3
        · exact hc h3.symm
        · exact h2 h3

theorem joinDot_cons (s : Str) (t : List Str) (h : t ≠ []) :
    joinDot (s :: t) = s ++ '.' :: joinDot t := by
  cases t with
  | nil => exact absurd rfl h
  | cons x xs => rfl

theorem joinDot_splitDot (l : Str) : joinDot (splitDot l) = l := by
  induction l with
  | nil => rfl
  | cons c rest ih =>
    by_cases hc : c = '.'
    · subst hc
      rw [splitDot_cons_dot, joinDot_cons _ _ (splitDot_ne_nil rest), ih]
      rfl
    · simp only [splitDot, if_neg hc]
      cases hsr : splitDot rest with
      | nil => exact absurd hsr (splitDot_ne_nil rest)
      | cons s ss =>
        rw [hsr] at ih
        cases ss with
        | nil =>
          simp only [joinDot] at ih ⊢
          rw [ih]
        | cons y ys =>
          rw [joinDot_cons _ _ (by simp)] at ih
          rw [joinDot_cons _ _ (by simp)]
          simp [← ih]

theorem splitDot_three (l h c t : Str) (he : splitDot l = [h, c, t]) :
    l = h ++ '.' :: (c ++ '.' :: t) := by
  have hj := joinDot_splitDot l
  rw [he, joinDot_cons _ _ (by simp), joinDot_cons _ _ (by simp)] at hj
  simp only [joinDot] at hj
  exact hj.symm

/-! ## UTF-8 length and byte slicing -/

theorem utf8Len_nil : utf8Len [] = 0 := rfl

theorem utf8Len_cons (c : Char) (l : Str) : utf8Len (c :: l) = c.utf8Size + utf8Len l := by
  simp [utf8Len]

theorem utf8Len_append (a b : Str) : utf8Len (a ++ b) = utf8Len a + utf8Len b := by
  simp [utf8Len]

theorem length_le_utf8Len (l : Str) : l.length ≤ utf8Len l := by
  induction l with
  | nil => simp [utf8Len]
  | cons c rest ih =>
    have := Char.utf8Size_pos c
    rw [utf8Len_cons]
    simp only [List.length_cons]
    omega

theorem takeBytes_append_exact (a : Str) (m : Nat) (r : Str) :
    takeBytes (utf8Len a + m) (a ++ r) = a ++ takeBytes m r := by
  induction a with
  | nil => simp [utf8Len]
  | cons c rest ih =>
    have hpos := Char.utf8Size_pos c
    rw [utf8Len_cons, List.cons_append]
    simp only [takeBytes]
    rw [if_pos (by omega)]
    have harith : c.utf8Size + utf8Len rest + m - c.utf8Size = utf8Len rest + m := by omega
    rw [harith, ih]
    rfl

theorem utf8Size_dot : ('.' : Char).utf8Size = 1 := by decide

theorem authenticated_slice (l h c t : Str) (he : splitDot l = [h, c, t]) :
    takeBytes (utf8Len h + 1 + utf8Len c) l = h ++ '.' :: c := by
  rw [splitDot_three _ _ _ _ he]
  have h1 : utf8Len h + 1 + utf8Len c = utf8Len h + (1 + utf8Len c) := by omega
  rw [h1, takeBytes_append_exact]
  simp only [takeBytes]
  rw [if_pos (by rw [utf8Size_dot]; omega), utf8Size_dot]
  have h2 : 1 + utf8Len c - 1 = utf8Len c + 0 := by omega
  rw [h2, takeBytes_append_exact]
  simp only [takeBytes]
  rw [if_neg (by rw [utf8Size_dot]; omega)]
  simp

/-! ## Case-analysis principles following the codec chunking -/

def list3Cases {α : Type} {P : List α → Prop} (h0 : P []) (h1 : ∀ a, P [a])
    (h2 : ∀ a b, P [a, b]) (h3 : ∀ a b c r, P r → P (a :: b :: c :: r)) :
    ∀ l, P l
  | [] => h0
  | [a] => h1 a
  | [a, b] => h2 a b
  | a :: b :: c :: r => h3 a b c r (list3Cases h0 h1 h2 h3 r)

def list4Cases {α : Type} {P : List α → Prop} (h0 : P []) (h1 : ∀ a, P [a])
    (h2 : ∀ a b, P [a, b]) (h3 : ∀ a b c, P [a, b, c])
    (h4 : ∀ a b c d r, P r → P (a :: b :: c :: d :: r)) : ∀ l, P l
  | [] => h0
  | [a] => h1 a
  | [a, b] => h2 a b
  | [a, b, c] => h3 a b c
  | a :: b :: c :: d :: r => h4 a b c d r (list4Cases h0 h1 h2 h3 h4 r)

/-! ## Facts about the base64url codec model -/

theorem b64Val_b64Char : ∀ n : Nat, n < 64 → b64Val (b64Char n) = some n := by decide

theorem b64Alphabet_length : b64Alphabet.length = 64 := by decide

theorem b64Char_ne_dot (n : Nat) : b64Char n ≠ '.' := by
  by_cases h : n < 64
  · exact (by decide : ∀ m : Nat, m < 64 → b64Char m ≠ '.') n h
  · have hA : b64Char n = 'A' := by
      unfold b64Char
      apply List.getD_eq_default
      rw [b64Alphabet_length]
      omega
    rw [hA]
    decide

theorem dot_ne_b64Char (n : Nat) : ('.' : Char) ≠ b64Char n := (b64Char_ne_dot n).symm

theorem dot_not_mem_b64Encode (l : List Nat) : '.' ∉ b64Encode l := by
  induction l using list3Cases with
  | h0 => simp [b64Encode]
  | h1 a => simp [b64Encode, dot_ne_b64Char]
  | h2 a b => simp [b64Encode, dot_ne_b64Char]
  | h3 a b c r ih => simp [b64Encode, dot_ne_b64Char, ih]

theorem b64Decode_b64Encode (l : List Nat) (hl : ∀ x ∈ l, x < 256) :
    b64Decode (b64Encode l) = some l := by
  induction l using list3Cases with
  | h0 => rfl
  | h1 a =>
    have ha : a < 256 := hl a (by simp)
    simp only [b64Encode, b64Decode]
    rw [b64Val_b64Char _ (by omega), b64Val_b64Char _ (by omega)]
    simp only [opt_bind_some, Option.some.injEq, List.cons.injEq, and_true]
    omega
  | h2 a b =>
    have ha : a < 256 := hl a (by simp)
    have hb : b < 256 := hl b (by simp)
    simp only [b64Encode, b64Decode]
    rw [b64Val_b64Char _ (by omega), b64Val_b64Char _ (by omega),
      b64Val_b64Char _ (by omega)]
    simp only [opt_bind_some, Option.some.injEq, List.cons.injEq, and_true]
    constructor
    · omega
    · omega
  | h3 a b c r ih =>
    have ha : a < 256 := hl a (by simp)
    have hb : b < 256 := hl b (by simp)
    have hc : c < 256 := hl c (by simp)
    have ihr := ih (fun x hx => hl x (by simp [hx]))
    simp only [b64Encode, b64Decode]
    rw [b64Val_b64Char _ (by omega), b64Val_b64Char _ (by omega),
      b64Val_b64Char _ (by omega), b64Val_b64Char _ (by omega)]
    simp only [opt_bind_some, ihr, Option.some.injEq, List.cons.injEq, and_true]
    refine ⟨by omega, by omega, by omega⟩

theorem b64Val_utf8Size (c : Char) (v : Nat) (h : b64Val c = some v) : c.utf8Size = 1 := by
  have hmem : c ∈ b64Alphabet := by
    by_cases hi : b64Alphabet.indexOf c < 64
    · exact List.indexOf_lt_length.mp (by rw [b64Alphabet_length]; exact hi)
    · simp [b64Val, hi] at h
  exact (by decide : ∀ x ∈ b64Alphabet, x.utf8Size = 1) c hmem

theorem b64Decode_ascii (l : Str) : ∀ bs, b64Decode l = some bs → utf8Len l = l.length := by
  induction l using list4Cases with
  | h0 => intro bs _; rfl
  | h1 a => intro bs h; simp [b64Decode] at h
  | h2 c1 c2 =>
    intro bs h
    cases hv1 : b64Val c1 with
    | none => simp [b64Decode, hv1, opt_bind_none] at h
    | some v1 =>
      cases hv2 : b64Val c2 with
      | none => simp [b64Decode, hv1, hv2, opt_bind_some, opt_bind_none] at h
      | some v2 =>
        rw [utf8Len_cons, utf8Len_cons, utf8Len_nil,
          b64Val_utf8Size c1 v1 hv1, b64Val_utf8Size c2 v2 hv2]
        rfl
  | h3 c1 c2 c3 =>
    intro bs h
    cases hv1 : b64Val c1 with
    | none => simp [b64Decode, hv1, opt_bind_none] at h
    | some v1 =>
      cases hv2 : b64Val c2 with
      | none => simp [b64Decode, hv1, hv2, opt_bind_some, opt_bind_none] at h
      | some v2 =>
        cases hv3 : b64Val c3 with
        | none => simp [b64Decode, hv1, hv2, hv3, opt_bind_some, opt_bind_none] at h
        | some v3 =>
          rw [utf8Len_cons, utf8Len_cons, utf8Len_cons, utf8Len_nil,
            b64Val_utf8Size c1 v1 hv1, b64Val_utf8Size c2 v2 hv2,
            b64Val_utf8Size c3 v3 hv3]
          rfl
  | h4 c1 c2 c3 c4 r ih =>
    intro bs h
    cases hv1 : b64Val c1 with
    | none => simp [b64Decode, hv1, opt_bind_none] at h
    | some v1 =>
      cases hv2 : b64Val c2 with
      | none => simp [b64Decode, hv1, hv2, opt_bind_some, opt_bind_none] at h
      | some v2 =>
        cases hv3 : b64Val c3 with
        | none => simp [b64Decode, hv1, hv2, hv3, opt_bind_some, opt_bind_none] at h
        | some v3 =>
          cases hv4 : b64Val c4 with
          | none => simp [b64Decode, hv1, hv2, hv3, hv4, opt_bind_some, opt_bind_none] at h
          | some v4 =>
            cases hr : b64Decode r with
            | none => simp [b64Decode, hv1, hv2, hv3, hv4, hr, opt_bind_some, opt_bind_none] at h
            | some br =>
              rw [utf8Len_cons, utf8Len_cons, utf8Len_cons, utf8Len_cons,
                b64Val_utf8Size c1 v1 hv1, b64Val_utf8Size c2 v2 hv2,
                b64Val_utf8Size c3 v3 hv3, b64Val_utf8Size c4 v4 hv4, ih br hr]
              simp only [List.length_cons]
              omega

/-! ## Control-flow decompositions of `Token.verify` and `Token.decode_metadata` -/

theorem not_le_of_lt_max (n : Nat) (hlen : MAX_HEADER_LENGTH < n) :
    ¬(n ≤ MAX_HEADER_LENGTH) := Nat.not_le.mpr hlen

theorem verify_structural {C : Type} (hd : List Nat → Option JWTHeader)
    (cd : List Nat → Option C) (val : C → VerificationOptions → Except Error Unit)
    (alg l : Str) (opts : Option VerificationOptions)
    (fn : Str → List Nat → Except Error Unit) (h c t : Str)
    (hsplit : splitDot l = [h, c, t]) (hlen : utf8Len h ≤ MAX_HEADER_LENGTH) :
    Token.verify hd cd val alg l opts fn = (do
      let headerBytes ← ofOption (b64Decode h) .encoding
      let jwt_header ← ofOption (hd headerBytes) .serialization
      sigCheck jwt_header
      ensureP (jwt_header.algorithm = alg) (.jwt .AlgorithmMismatch)
      keyIdCheck jwt_header (opts.getD {})
      let tag ← ofOption (b64Decode t) .encoding
      fn (takeBytes (utf8Len h + 1 + utf8Len c) l) tag
      verifyTail cd val (opts.getD {}) c) := by
  unfold Token.verify
  rw [hsplit]
  simp only [List.getElem?_cons_zero, List.getElem?_cons_succ, List.getElem?_nil,
    ofOption_some, exc_bind_ok, ensureP_pos _ hlen, ensureP_pos _ trivial]

theorem verify_too_large_aux {C : Type} (hd : List Nat → Option JWTHeader)
    (cd : List Nat → Option C) (val : C → VerificationOptions → Except Error Unit)
    (alg l : Str) (opts : Option VerificationOptions)
    (fn : Str → List Nat → Except Error Unit) (h : Str) (rest : List Str)
    (hsplit : splitDot l = h :: rest) (hlen : MAX_HEADER_LENGTH < utf8Len h) :
    Token.verify hd cd val alg l opts fn = .error (.jwt .HeaderTooLarge) := by
  unfold Token.verify
  rw [hsplit]
  simp only [List.getElem?_cons_zero, ofOption_some, exc_bind_ok,
    ensureP_neg _ (not_le_of_lt_max _ hlen), exc_bind_err]

theorem metadata_too_large_aux (hd : List Nat → Option JWTHeader) (l : Str) (h : Str)
    (rest : List Str) (hsplit : splitDot l = h :: rest)
    (hlen : MAX_HEADER_LENGTH < utf8Len h) :
    Token.decode_metadata hd l = .error (.jwt .HeaderTooLarge) := by
  unfold Token.decode_metadata
  rw [hsplit]
  simp only [List.getElem?_cons_zero, ofOption_some, exc_bind_ok,
    ensureP_neg _ (not_le_of_lt_max _ hlen), exc_bind_err]

theorem verify_not_three_aux {C : Type} (hd : List Nat → Option JWTHeader)
    (cd : List Nat → Option C) (val : C → VerificationOptions → Except Error Unit)
    (alg l : Str) (opts : Option VerificationOptions)
    (fn : Str → List Nat → Except Error Unit) (h : Str) (rest : List Str)
    (hsplit : splitDot l = h :: rest) (hlen : utf8Len h ≤ MAX_HEADER_LENGTH)
    (hn : rest.length ≠ 2) :
    Token.verify hd cd val alg l opts fn = .error (.jwt .CompactEncodingError) := by
  unfold Token.verify
  rw [hsplit]
  cases rest with
  | nil =>
    simp only [List.getElem?_cons_zero, List.getElem?_cons_succ, List.getElem?_nil,
      ofOption_some, ofOption_none, exc_bind_ok, exc_bind_err, ensureP_pos _ hlen]
  | cons s2 rest2 =>
    cases rest2 with
    | nil =>
      simp only [List.getElem?_cons_zero, List.getElem?_cons_succ, List.getElem?_nil,
        ofOption_some, ofOption_none, exc_bind_ok, exc_bind_err, ensureP_pos _ hlen]
    | cons s3 rest3 =>
      cases rest3 with
      | nil => simp at hn
      | cons s4 rest4 =>
        simp only [List.getElem?_cons_zero, List.getElem?_cons_succ, List.getElem?_nil,
          ofOption_some, exc_bind_ok, ensureP_pos _ hlen,
          ensureP_neg _ (Option.some_ne_none s4), exc_bind_err]

theorem exc_pure {ε α : Type} (a : α) : (pure a : Except ε α) = Except.ok a := rfl

theorem MAX_eq : MAX_HEADER_LENGTH = 8192 := rfl

theorem sigCheck_congr (h1 h2 : JWTHeader) (hs : h1.signature_type = h2.signature_type) :
    sigCheck h1 = sigCheck h2 := by
  simp [sigCheck, hs]

theorem keyIdCheck_none (h : JWTHeader) (options : VerificationOptions)
    (hn : options.required_key_id = none) : keyIdCheck h options = .ok () := by
  simp [keyIdCheck, hn]

/-! ## Concrete instances used by witnesses and counterexamples -/

/-- A plain HS256 header. -/
def hdrHS : JWTHeader := { algorithm := "HS256".toList }

/-- A plain RS256 header. -/
def hdrRS : JWTHeader := { algorithm := "RS256".toList }

/-- An RS256 header whose `signature_type` is the non-JWT literal `"X"`. -/
def hdrRSX : JWTHeader := { algorithm := "RS256".toList, signature_type := some ("X".toList) }

/-- An HS256 header carrying `signature_type = "X"`. -/
def hdrHSX : JWTHeader := { algorithm := "HS256".toList, signature_type := some ("X".toList) }

/-- An HS256 header carrying the key id `"x"`. -/
def hdrKid : JWTHeader := { algorithm := "HS256".toList, key_id := some ("x".toList) }

/-- A toy header deserializer recognizing the single byte `1` as `hdrHS`. -/
def hdHS : List Nat → Option JWTHeader := fun bs => if bs = [1] then some hdrHS else none

/-- A toy header deserializer recognizing the single byte `1` as `hdrRS`. -/
def hdRS : List Nat → Option JWTHeader := fun bs => if bs = [1] then some hdrRS else none

/-- A toy header deserializer recognizing the single byte `1` as `hdrRSX`. -/
def hdRSX : List Nat → Option JWTHeader := fun bs => if bs = [1] then some hdrRSX else none

/-- A toy header deserializer recognizing the single byte `1` as `hdrHSX`. -/
def hdHSX : List Nat → Option JWTHeader := fun bs => if bs = [1] then some hdrHSX else none

/-- A toy header deserializer recognizing the single byte `1` as `hdrKid`. -/
def hdKid : List Nat → Option JWTHeader := fun bs => if bs = [1] then some hdrKid else none

/-- A toy claims deserializer recognizing the single byte `2` as the claims value `42`. -/
def cdNat : List Nat → Option Nat := fun bs => if bs = [2] then some 42 else none

/-- A claims validator accepting everything. -/
def valOk : Nat → VerificationOptions → Except Error Unit := fun _ _ => .ok ()

/-- A verification function accepting every authenticated string and tag. -/
def fnOk : Str → List Nat → Except Error Unit := fun _ _ => .ok ()

/-- A verification function rejecting everything with an opaque caller error. -/
def fnErr : Str → List Nat → Except Error Unit := fun _ _ => .error (.custom 9)

/-- The compact token `"AQ.Ag.Aw"`: header bytes `[1]`, claims bytes `[2]`, tag `[3]`. -/
def tok0 : Str := "AQ.Ag.Aw".toList

/-- Options requiring the key id `"k"`. -/
def optsKid : Option VerificationOptions := some { required_key_id := some ("k".toList) }

theorem dot_not_mem_replicate_a (n : Nat) : '.' ∉ List.replicate n 'a' := by
  intro h
  exact absurd (List.mem_replicate.mp h).2 (by decide)

/-! ## Claim C4 -/

/-- C4: for every token whose first dot-separated segment is longer than 8192
characters, both `Token.verify` and `Token.decode_metadata` return
`HeaderTooLarge`, and they do so before any base64url decoding or JSON
deserialization of that segment is attempted — expressed by the result being
`HeaderTooLarge` for every header deserializer `hd` and independently of
whether the segment would decode at all. -/
theorem verify_and_metadata_header_too_large {C : Type}
    (hd : List Nat → Option JWTHeader) (cd : List Nat → Option C)
    (val : C → VerificationOptions → Except Error Unit)
    (alg l : Str) (opts : Option VerificationOptions)
    (fn : Str → List Nat → Except Error Unit)
    (h : Str) (rest : List Str)
    (hsplit : splitDot l = h :: rest) (hlen : 8192 < h.length) :
    Token.verify hd cd val alg l opts fn = .error (.jwt .HeaderTooLarge) ∧
    Token.decode_metadata hd l = .error (.jwt .HeaderTooLarge) := by
  have hb : MAX_HEADER_LENGTH < utf8Len h := by
    have := length_le_utf8Len h
    rw [MAX_eq]
    omega
  exact ⟨verify_too_large_aux hd cd val alg l opts fn h rest hsplit hb,
    metadata_too_large_aux hd l h rest hsplit hb⟩

/-- Witness for C4 at the dot-free token of 8193 `'a'`s. -/
theorem verify_and_metadata_header_too_large_witness :
    Token.verify hdHS cdNat valOk ("HS256".toList) (List.replicate 8193 'a') none fnOk
      = .error (.jwt .HeaderTooLarge) ∧
    Token.decode_metadata hdHS (List.replicate 8193 'a') = .error (.jwt .HeaderTooLarge) :=
  verify_and_metadata_header_too_large hdHS cdNat valOk ("HS256".toList)
    (List.replicate 8193 'a') none fnOk (List.replicate 8193 'a') []
    (splitDot_no_dot _ (dot_not_mem_replicate_a 8193))
    (by rw [List.length_replicate]; omega)

/-! ## Claim C3 -/

/-- C3 counterexample: the claim says a single segment longer than 8192
characters yields the structural error `CompactEncodingError`, never
`HeaderTooLarge`; on the code, the dot-free token of 8193 `'a'`s (one
segment) yields `HeaderTooLarge`, because the size guard runs right after
extracting the first segment and before the remaining-segments checks. -/
theorem verify_long_single_segment_counterexample :
    splitDot (List.replicate 8193 'a') = [List.replicate 8193 'a'] ∧
    Token.verify hdHS cdNat valOk ("HS256".toList) (List.replicate 8193 'a') none fnOk
      = .error (.jwt .HeaderTooLarge) ∧
    (Error.jwt .HeaderTooLarge) ≠ (Error.jwt .CompactEncodingError) := by
  have hs : splitDot (List.replicate 8193 'a') = [List.replicate 8193 'a'] :=
    splitDot_no_dot _ (dot_not_mem_replicate_a 8193)
  refine ⟨hs, ?_, by decide⟩
  apply verify_too_large_aux hdHS cdNat valOk ("HS256".toList) _ none fnOk _ [] hs
  have h1 : (List.replicate 8193 'a').length ≤ utf8Len (List.replicate 8193 'a') :=
    length_le_utf8Len _
  rw [List.length_replicate] at h1
  rw [MAX_eq]
  omega

/-- C3 amended: `Token.verify` extracts the first dot-separated segment and
applies the 8192-byte size guard before requiring the remaining segments;
hence a token whose first segment exceeds the limit yields `HeaderTooLarge`
regardless of the segment count, and a token whose first segment is within
the limit but which does not consist of exactly three segments yields
`CompactEncodingError`. -/
theorem verify_size_guard_order_amended {C : Type}
    (hd : List Nat → Option JWTHeader) (cd : List Nat → Option C)
    (val : C → VerificationOptions → Except Error Unit)
    (alg l : Str) (opts : Option VerificationOptions)
    (fn : Str → List Nat → Except Error Unit)
    (h : Str) (rest : List Str) (hsplit : splitDot l = h :: rest) :
    (8192 < utf8Len h →
      Token.verify hd cd val alg l opts fn = .error (.jwt .HeaderTooLarge)) ∧
    (utf8Len h ≤ 8192 → rest.length ≠ 2 →
      Token.verify hd cd val alg l opts fn = .error (.jwt .CompactEncodingError)) := by
  constructor
  · intro hl
    exact verify_too_large_aux hd cd val alg l opts fn h rest hsplit (by rw [MAX_eq]; omega)
  · intro hl hn
    exact verify_not_three_aux hd cd val alg l opts fn h rest hsplit (by rw [MAX_eq]; omega) hn

/-- Witness for the amended C3: the over-long one-segment token yields
`HeaderTooLarge`, the short two-segment token `"a.b"` yields
`CompactEncodingError`. -/
theorem verify_size_guard_order_amended_witness :
    Token.verify hdHS cdNat valOk ("HS256".toList) (List.replicate 8193 'a') none fnOk
      = .error (.jwt .HeaderTooLarge) ∧
    Token.verify hdHS cdNat valOk ("HS256".toList) ("a.b".toList) none fnOk
      = .error (.jwt .CompactEncodingError) :=
  ⟨(verify_size_guard_order_amended hdHS cdNat valOk ("HS256".toList)
      (List.replicate 8193 'a') none fnOk (List.replicate 8193 'a') []
      (splitDot_no_dot _ (dot_not_mem_replicate_a 8193))).1
      (by
        have h1 := length_le_utf8Len (List.replicate 8193 'a')
        rw [List.length_replicate] at h1
        omega),
   (verify_size_guard_order_amended hdHS cdNat valOk ("HS256".toList)
      ("a.b".toList) none fnOk ['a'] [['b']] (by decide)).2 (by decide) (by decide)⟩

/-! ## Claim C1 -/

/-- C1 counterexample: the claim says a mismatched header algorithm always
yields `AlgorithmMismatch`; on the code, a token whose decoded header has
`algorithm = "RS256"` but also `signature_type = "X"` is rejected with
`NotJWT` when verified under `"HS256"`, even though the verification function
(`fnOk`, which accepts everything) would have accepted the tag. -/
theorem verify_alg_mismatch_counterexample :
    b64Decode ("AQ".toList) = some [1] ∧
    hdRSX [1] = some hdrRSX ∧
    hdrRSX.algorithm ≠ "HS256".toList ∧
    Token.verify hdRSX cdNat valOk ("HS256".toList) tok0 none fnOk = .error (.jwt .NotJWT) ∧
    (Error.jwt .NotJWT) ≠ (Error.jwt .AlgorithmMismatch) := by decide

/-- C1 amended: for every token that reaches the algorithm check (exactly
three segments, header segment within the size bound, header decodes and
deserializes, and the `signature_type` check passes), a header algorithm that
is not exactly `jwt_alg_name` makes `Token.verify` return
`AlgorithmMismatch` for every verification function — so that function is
never invoked. -/
theorem verify_algorithm_mismatch_amended {C : Type}
    (hd : List Nat → Option JWTHeader) (cd : List Nat → Option C)
    (val : C → VerificationOptions → Except Error Unit)
    (alg l : Str) (opts : Option VerificationOptions)
    (h c t : Str) (hb : List Nat) (hdr : JWTHeader)
    (hsplit : splitDot l = [h, c, t]) (hlen : utf8Len h ≤ MAX_HEADER_LENGTH)
    (hdec : b64Decode h = some hb) (hdes : hd hb = some hdr)
    (hsig : sigCheck hdr = .ok ()) (halg : hdr.algorithm ≠ alg) :
    ∀ fn, Token.verify hd cd val alg l opts fn = .error (.jwt .AlgorithmMismatch) := by
  intro fn
  rw [verify_structural hd cd val alg l opts fn h c t hsplit hlen]
  simp only [hdec, hdes, ofOption_some, exc_bind_ok, hsig, ensureP_neg _ halg, exc_bind_err]

/-- Witness for the amended C1: an `"RS256"` header (with no
`signature_type`) verified under `"HS256"` yields `AlgorithmMismatch`. -/
theorem verify_algorithm_mismatch_amended_witness :
    Token.verify hdRS cdNat valOk ("HS256".toList) tok0 none fnOk
      = .error (.jwt .AlgorithmMismatch) :=
  verify_algorithm_mismatch_amended hdRS cdNat valOk ("HS256".toList) tok0 none
    ("AQ".toList) ("Ag".toList) ("Aw".toList) [1] hdrRS
    (by decide) (by decide) (by decide) (by decide) (by decide) (by decide) fnOk

/-! ## Claim C9 -/

/-- C9 counterexample: the claim says that whenever `required_key_id` is set
and the decoded header carries no `key_id`, `Token.verify` returns
`MissingJWTKeyIdentifier`; on the code, an `"RS256"` header with no key id,
verified under `"HS256"` with `required_key_id = "k"`, yields
`AlgorithmMismatch` instead, because the algorithm check runs first. -/
theorem key_id_check_counterexample :
    (optsKid.getD {}).required_key_id = some ("k".toList) ∧
    hdRS [1] = some hdrRS ∧
    hdrRS.key_id = none ∧
    Token.verify hdRS cdNat valOk ("HS256".toList) tok0 optsKid fnOk
      = .error (.jwt .AlgorithmMismatch) ∧
    (Error.jwt .AlgorithmMismatch) ≠ (Error.jwt .MissingJWTKeyIdentifier) := by decide

/-- C9 amended: for every verification run that reaches the key-id check
(exactly three segments, header within the size bound, header decodes, the
`signature_type` check passes, and the algorithm matches): a set
`required_key_id` with an absent header `key_id` yields
`MissingJWTKeyIdentifier`; a set `required_key_id` with a different header
`key_id` yields the distinct error `KeyIdentifierMismatch`; and when
`required_key_id` is not set the header's `key_id` is never consulted —
replacing the header by one agreeing on `algorithm` and `signature_type` but
with any other `key_id` leaves the result unchanged. -/
theorem key_id_check_amended {C : Type}
    (hd : List Nat → Option JWTHeader) (cd : List Nat → Option C)
    (val : C → VerificationOptions → Except Error Unit)
    (alg l : Str) (opts : Option VerificationOptions)
    (fn : Str → List Nat → Except Error Unit)
    (h c t : Str) (hb : List Nat) (hdr : JWTHeader)
    (hsplit : splitDot l = [h, c, t]) (hlen : utf8Len h ≤ MAX_HEADER_LENGTH)
    (hdec : b64Decode h = some hb) (hdes : hd hb = some hdr)
    (hsig : sigCheck hdr = .ok ()) (halg : hdr.algorithm = alg) :
    (∀ r, (opts.getD {}).required_key_id = some r → hdr.key_id = none →
      Token.verify hd cd val alg l opts fn = .error (.jwt .MissingJWTKeyIdentifier)) ∧
    (∀ r k, (opts.getD {}).required_key_id = some r → hdr.key_id = some k → k ≠ r →
      Token.verify hd cd val alg l opts fn = .error (.jwt .KeyIdentifierMismatch)) ∧
    ((opts.getD {}).required_key_id = none →
      ∀ (hd2 : List Nat → Option JWTHeader) (hdr2 : JWTHeader),
        hd2 hb = some hdr2 → hdr2.algorithm = hdr.algorithm →
        hdr2.signature_type = hdr.signature_type →
        Token.verify hd2 cd val alg l opts fn = Token.verify hd cd val alg l opts fn) := by
  refine ⟨?_, ?_, ?_⟩
  · intro r hreq hkid
    rw [verify_structural hd cd val alg l opts fn h c t hsplit hlen]
    simp only [hdec, hdes, ofOption_some, exc_bind_ok, hsig, ensureP_pos _ halg,
      keyIdCheck, hreq, hkid, exc_bind_err]
  · intro r k hreq hkid hne
    rw [verify_structural hd cd val alg l opts fn h c t hsplit hlen]
    simp only [hdec, hdes, ofOption_some, exc_bind_ok, hsig, ensureP_pos _ halg,
      keyIdCheck, hreq, hkid, ensureP_neg _ hne, exc_bind_err]
  · intro hreq hd2 hdr2 hdes2 halg2 hsig2
    rw [verify_structural hd cd val alg l opts fn h c t hsplit hlen,
      verify_structural hd2 cd val alg l opts fn h c t hsplit hlen]
    simp only [hdec, hdes, hdes2, ofOption_some, exc_bind_ok,
      sigCheck_congr hdr2 hdr hsig2, halg2,
      keyIdCheck_none _ _ hreq]

/-- Witness for the amended C9: missing key id, mismatched key id, and the
no-requirement case where two headers differing only in `key_id` verify
identically. -/
theorem key_id_check_amended_witness :
    Token.verify hdHS cdNat valOk ("HS256".toList) tok0 optsKid fnOk
      = .error (.jwt .MissingJWTKeyIdentifier) ∧
    Token.verify hdKid cdNat valOk ("HS256".toList) tok0 optsKid fnOk
      = .error (.jwt .KeyIdentifierMismatch) ∧
    Token.verify hdKid cdNat valOk ("HS256".toList) tok0 none fnOk
      = Token.verify hdHS cdNat valOk ("HS256".toList) tok0 none fnOk :=
  ⟨(key_id_check_amended hdHS cdNat valOk ("HS256".toList) tok0 optsKid fnOk
      ("AQ".toList) ("Ag".toList) ("Aw".toList) [1] hdrHS
      (by decide) (by decide) (by decide) (by decide) (by decide) (by decide)).1
      ("k".toList) (by decide) (by decide),
   (key_id_check_amended hdKid cdNat valOk ("HS256".toList) tok0 optsKid fnOk
      ("AQ".toList) ("Ag".toList) ("Aw".toList) [1] hdrKid
      (by decide) (by decide) (by decide) (by decide) (by decide) (by decide)).2.1
      ("k".toList) ("x".toList) (by decide) (by decide) (by decide),
   (key_id_check_amended hdHS cdNat valOk ("HS256".toList) tok0 none fnOk
      ("AQ".toList) ("Ag".toList) ("Aw".toList) [1] hdrHS
      (by decide) (by decide) (by decide) (by decide) (by decide) (by decide)).2.2
      (by decide) hdKid hdrKid (by decide) (by decide) (by decide)⟩

/-! ## Claim C5 -/

/-- C5: for every three-segment token that passes the structural, header,
algorithm and key-id checks, `Token.verify` invokes the caller-supplied
verification function on exactly the byte-sliced prefix of the original token
covering the first two segments — which equals `header_b64 ++ "." ++
claims_b64` — together with the base64url-decoded third segment as the tag,
and the rest of the computation depends on the function only through that
single call. -/
theorem verify_authenticated_slice {C : Type}
    (hd : List Nat → Option JWTHeader) (cd : List Nat → Option C)
    (val : C → VerificationOptions → Except Error Unit)
    (alg l : Str) (opts : Option VerificationOptions)
    (h c t : Str) (hb : List Nat) (hdr : JWTHeader) (tag : List Nat)
    (hsplit : splitDot l = [h, c, t]) (hlen : utf8Len h ≤ MAX_HEADER_LENGTH)
    (hdec : b64Decode h = some hb) (hdes : hd hb = some hdr)
    (hsig : sigCheck hdr = .ok ()) (halg : hdr.algorithm = alg)
    (hkid : keyIdCheck hdr (opts.getD {}) = .ok ())
    (htag : b64Decode t = some tag) :
    takeBytes (utf8Len h + 1 + utf8Len c) l = h ++ '.' :: c ∧
    ∀ fn, Token.verify hd cd val alg l opts fn =
      (fn (h ++ '.' :: c) tag >>= fun _ => verifyTail cd val (opts.getD {}) c) := by
  have hslice := authenticated_slice l h c t hsplit
  refine ⟨hslice, fun fn => ?_⟩
  rw [verify_structural hd cd val alg l opts fn h c t hsplit hlen]
  simp only [hdec, hdes, ofOption_some, exc_bind_ok, hsig, ensureP_pos _ halg, hkid,
    htag, hslice]

/-- Witness for C5 on the concrete token `"AQ.Ag.Aw"`. -/
theorem verify_authenticated_slice_witness :
    takeBytes (utf8Len ("AQ".toList) + 1 + utf8Len ("Ag".toList)) tok0
      = "AQ".toList ++ '.' :: "Ag".toList ∧
    Token.verify hdHS cdNat valOk ("HS256".toList) tok0 none fnOk =
      (fnOk ("AQ".toList ++ '.' :: "Ag".toList) [3] >>=
        fun _ => verifyTail cdNat valOk {} ("Ag".toList)) :=
  ⟨(verify_authenticated_slice hdHS cdNat valOk ("HS256".toList) tok0 none
      ("AQ".toList) ("Ag".toList) ("Aw".toList) [1] hdrHS [3]
      (by decide) (by decide) (by decide) (by decide) (by decide) (by decide)
      (by decide) (by decide)).1,
   (verify_authenticated_slice hdHS cdNat valOk ("HS256".toList) tok0 none
      ("AQ".toList) ("Ag".toList) ("Aw".toList) [1] hdrHS [3]
      (by decide) (by decide) (by decide) (by decide) (by decide) (by decide)
      (by decide) (by decide)).2 fnOk⟩

/-! ## Claim C6 -/

/-- C6: on every run that reaches the caller-supplied verification function,
if that function returns an error then `Token.verify` returns exactly that
error, for every claims deserializer and every claims validator — the claims
segment is never decoded, so its content (even malformed base64url or JSON)
cannot influence the result of a failed verification. -/
theorem verify_auth_failure_opaque {C : Type}
    (hd : List Nat → Option JWTHeader) (alg l : Str)
    (opts : Option VerificationOptions) (fn : Str → List Nat → Except Error Unit)
    (h c t : Str) (hb : List Nat) (hdr : JWTHeader) (tag : List Nat) (e : Error)
    (hsplit : splitDot l = [h, c, t]) (hlen : utf8Len h ≤ MAX_HEADER_LENGTH)
    (hdec : b64Decode h = some hb) (hdes : hd hb = some hdr)
    (hsig : sigCheck hdr = .ok ()) (halg : hdr.algorithm = alg)
    (hkid : keyIdCheck hdr (opts.getD {}) = .ok ())
    (htag : b64Decode t = some tag)
    (hfn : fn (h ++ '.' :: c) tag = .error e) :
    ∀ (cd : List Nat → Option C) (val : C → VerificationOptions → Except Error Unit),
      Token.verify hd cd val alg l opts fn = .error e := by
  intro cd val
  rw [verify_structural hd cd val alg l opts fn h c t hsplit hlen]
  simp only [hdec, hdes, ofOption_some, exc_bind_ok, hsig, ensureP_pos _ halg, hkid,
    htag, authenticated_slice l h c t hsplit, hfn, exc_bind_err]

/-- Witness for C6: a rejecting verification function propagates its opaque
error even when the claims deserializer would fail on everything. -/
theorem verify_auth_failure_opaque_witness :
    Token.verify hdHS (fun _ => (none : Option Nat)) valOk ("HS256".toList) tok0 none fnErr
      = .error (.custom 9) :=
  verify_auth_failure_opaque hdHS ("HS256".toList) tok0 none fnErr
    ("AQ".toList) ("Ag".toList) ("Aw".toList) [1] hdrHS [3] (.custom 9)
    (by decide) (by decide) (by decide) (by decide) (by decide) (by decide)
    (by decide) (by decide) (by decide)
    (fun _ => (none : Option Nat)) valOk

/-! ## Claim C7 -/

/-- C7: `Token.build` returns
`b64(header_json) ++ "." ++ b64(claims_json) ++ "." ++ b64(sign(joined))`,
invoking the signing function on exactly the joined two-segment string, and
propagates the error whenever the header serialization, the claims
serialization, or the signing function fails. -/
theorem build_characterization {C : Type}
    (hser : JWTHeader → Except Error (List Nat)) (cser : C → Except Error (List Nat))
    (hdr : JWTHeader) (claims : C) (signFn : Str → Except Error (List Nat)) :
    (∀ hj cj tag, hser hdr = .ok hj → cser claims = .ok cj →
      signFn (b64Encode hj ++ '.' :: b64Encode cj) = .ok tag →
      Token.build hser cser hdr claims signFn =
        .ok ((b64Encode hj ++ '.' :: b64Encode cj) ++ '.' :: b64Encode tag)) ∧
    (∀ e, hser hdr = .error e →
      Token.build hser cser hdr claims signFn = .error e) ∧
    (∀ hj e, hser hdr = .ok hj → cser claims = .error e →
      Token.build hser cser hdr claims signFn = .error e) ∧
    (∀ hj cj e, hser hdr = .ok hj → cser claims = .ok cj →
      signFn (b64Encode hj ++ '.' :: b64Encode cj) = .error e →
      Token.build hser cser hdr claims signFn = .error e) := by
  refine ⟨?_, ?_, ?_, ?_⟩
  · intro hj cj tag h1 h2 h3
    unfold Token.build
    simp only [h1, h2, h3, exc_bind_ok, exc_bind_err, exc_pure]
  · intro e h1
    unfold Token.build
    simp only [h1, exc_bind_err]
  · intro hj e h1 h2
    unfold Token.build
    simp only [h1, h2, exc_bind_ok, exc_bind_err]
  · intro hj cj e h1 h2 h3
    unfold Token.build
    simp only [h1, h2, h3, exc_bind_ok, exc_bind_err]

/-- Witness for C7: a concrete build producing the three-segment token, and
the three failure propagations at concrete serializers. -/
theorem build_characterization_witness :
    Token.build (fun _ => .ok [1]) (fun _ => .ok [2]) hdrHS (42 : Nat) (fun _ => .ok [3])
      = .ok ((b64Encode [1] ++ '.' :: b64Encode [2]) ++ '.' :: b64Encode [3]) ∧
    Token.build (fun _ => .error (.custom 1)) (fun _ => .ok [2]) hdrHS (42 : Nat)
      (fun _ => .ok [3]) = .error (.custom 1) ∧
    Token.build (fun _ => .ok [1]) (fun _ => .error (.custom 2)) hdrHS (42 : Nat)
      (fun _ => .ok [3]) = .error (.custom 2) ∧
    Token.build (fun _ => .ok [1]) (fun _ => .ok [2]) hdrHS (42 : Nat)
      (fun _ => .error (.custom 3)) = .error (.custom 3) :=
  ⟨(build_characterization (fun _ => .ok [1]) (fun _ => .ok [2]) hdrHS 42
      (fun _ => .ok [3])).1 [1] [2] [3] rfl rfl rfl,
   (build_characterization (fun _ => .error (.custom 1)) (fun _ => .ok [2]) hdrHS 42
      (fun _ => .ok [3])).2.1 (.custom 1) rfl,
   (build_characterization (fun _ => .ok [1]) (fun _ => .error (.custom 2)) hdrHS 42
      (fun _ => .ok [3])).2.2.1 [1] (.custom 2) rfl rfl,
   (build_characterization (fun _ => .ok [1]) (fun _ => .ok [2]) hdrHS 42
      (fun _ => .error (.custom 3))).2.2.2 [1] [2] (.custom 3) rfl rfl rfl⟩

/-! ## Claim C8 -/

/-- C8 counterexample: the claim asserts the round trip for every header; on
the code it fails for the header `hdrHSX` (algorithm `"HS256"` but
`signature_type = "X"`): `build` succeeds, the signing/verification functions
are a matched correct pair (`fnOk` accepts everything the constant signer
produces), the validator accepts the claims and no options are required, yet
`verify` under the same algorithm name returns `NotJWT` instead of the
original claims `42`. -/
theorem round_trip_counterexample :
    Token.build (fun _ => .ok [1]) (fun _ => .ok [2]) hdrHSX (42 : Nat) (fun _ => .ok [3])
      = .ok tok0 ∧
    hdHSX [1] = some hdrHSX ∧
    cdNat [2] = some 42 ∧
    fnOk ("AQ".toList ++ '.' :: "Ag".toList) [3] = .ok () ∧
    valOk 42 {} = .ok () ∧
    Token.verify hdHSX cdNat valOk ("HS256".toList) tok0 none fnOk
      = .error (.jwt .NotJWT) ∧
    Except.error (Error.jwt .NotJWT) ≠ (Except.ok (42 : Nat)) := by decide

/-- C8 amended: the round trip holds provided additionally the header's
`signature_type` check passes, the base64url-encoded header segment does not
exceed the 8192-byte cap, and the header satisfies the options' key-id
requirement: if the serializers/deserializers invert each other on this
header and these claims, the signing and verification functions are a matched
correct pair, and the claims validate under the options, then verifying the
built token under the same algorithm name returns the original claims. -/
theorem round_trip_amended {C : Type}
    (hser : JWTHeader → Except Error (List Nat)) (cser : C → Except Error (List Nat))
    (hd : List Nat → Option JWTHeader) (cd : List Nat → Option C)
    (val : C → VerificationOptions → Except Error Unit)
    (alg : Str) (opts : Option VerificationOptions) (hdr : JWTHeader) (claims : C)
    (signFn : Str → Except Error (List Nat)) (vfyFn : Str → List Nat → Except Error Unit)
    (hj cj : List Nat) (l : Str)
    (hser_ok : hser hdr = .ok hj) (hdes : hd hj = some hdr)
    (cser_ok : cser claims = .ok cj) (cdes : cd cj = some claims)
    (hjb : ∀ x ∈ hj, x < 256) (cjb : ∀ x ∈ cj, x < 256)
    (hlen : utf8Len (b64Encode hj) ≤ MAX_HEADER_LENGTH)
    (hsig : sigCheck hdr = .ok ()) (halg : hdr.algorithm = alg)
    (hkid : keyIdCheck hdr (opts.getD {}) = .ok ())
    (hval : val claims (opts.getD {}) = .ok ())
    (hpair : ∀ s tg, signFn s = .ok tg → vfyFn s tg = .ok () ∧ ∀ x ∈ tg, x < 256)
    (hbuild : Token.build hser cser hdr claims signFn = .ok l) :
    Token.verify hd cd val alg l opts vfyFn = .ok claims := by
  unfold Token.build at hbuild
  simp only [hser_ok, cser_ok, exc_bind_ok] at hbuild
  cases hsf : signFn (b64Encode hj ++ '.' :: b64Encode cj) with
  | error e => rw [hsf, exc_bind_err] at hbuild; exact absurd hbuild (by simp)
  | ok tag =>
    rw [hsf, exc_bind_ok, exc_pure] at hbuild
    have htok : l = (b64Encode hj ++ '.' :: b64Encode cj) ++ '.' :: b64Encode tag := by
      cases hbuild
      rfl
    obtain ⟨hvfy, htagb⟩ := hpair _ tag hsf
    have hsplit : splitDot l = [b64Encode hj, b64Encode cj, b64Encode tag] := by
      rw [htok, List.append_assoc, List.cons_append,
        splitDot_append_dot _ _ (dot_not_mem_b64Encode hj),
        splitDot_append_dot _ _ (dot_not_mem_b64Encode cj),
        splitDot_no_dot _ (dot_not_mem_b64Encode tag)]
    rw [verify_structural hd cd val alg l opts vfyFn _ _ _ hsplit hlen]
    rw [authenticated_slice l _ _ _ hsplit]
    simp only [b64Decode_b64Encode hj hjb, b64Decode_b64Encode tag htagb,
      ofOption_some, exc_bind_ok, hdes, hsig, ensureP_pos _ halg, hkid, hvfy]
    unfold verifyTail
    simp only [b64Decode_b64Encode cj cjb, ofOption_some, exc_bind_ok, cdes, hval,
      exc_pure]

/-- Witness for the amended C8: the full round trip at concrete serializers,
header, claims and a matched signing/verification pair. -/
theorem round_trip_amended_witness :
    Token.verify hdHS cdNat valOk ("HS256".toList) tok0 none fnOk = .ok 42 :=
  round_trip_amended (fun _ => .ok [1]) (fun _ => .ok [2]) hdHS cdNat valOk
    ("HS256".toList) none hdrHS 42 (fun _ => .ok [3]) fnOk [1] [2] tok0
    rfl (by decide) rfl (by decide) (by decide) (by decide) (by decide) (by decide)
    (by decide) (by decide) (by decide)
    (fun s tg htg => by
      injection htg with h1
      exact ⟨rfl, by rw [← h1]; decide⟩)
    (by decide)

/-! ## Claim C10 -/

/-- C10: `Token.decode_metadata` depends only on the first dot-separated
segment: whenever that segment is at most 8192 characters and base64url-
decodes to bytes the header deserializer accepts, `decode_metadata` succeeds —
on the original token whatever its segment count, on the bare dot-free
segment itself, and on the segment followed by a dot and arbitrary other
content. -/
theorem decode_metadata_first_segment_only
    (hd : List Nat → Option JWTHeader) (l h : Str) (hb : List Nat) (hdr : JWTHeader)
    (hhead : (splitDot l)[0]? = some h)
    (hlen : h.length ≤ 8192)
    (hdec : b64Decode h = some hb) (hdes : hd hb = some hdr) :
    Token.decode_metadata hd l = .ok { jwt_header := hdr } ∧
    Token.decode_metadata hd h = .ok { jwt_header := hdr } ∧
    (∀ rest : Str, Token.decode_metadata hd (h ++ '.' :: rest)
      = .ok { jwt_header := hdr }) := by
  have hascii : utf8Len h = h.length := b64Decode_ascii h hb hdec
  have hlen2 : utf8Len h ≤ MAX_HEADER_LENGTH := by rw [hascii, MAX_eq]; omega
  have hnodot : '.' ∉ h := by
    cases hsd : splitDot l with
    | nil => exact absurd hsd (splitDot_ne_nil l)
    | cons x xs =>
      rw [hsd, List.getElem?_cons_zero] at hhead
      injection hhead with hx
      rw [← hx]
      exact splitDot_head_no_dot l x xs hsd
  have main : ∀ s : Str, (splitDot s)[0]? = some h →
      Token.decode_metadata hd s = .ok { jwt_header := hdr } := by
    intro s hs
    unfold Token.decode_metadata
    cases hsd : splitDot s with
    | nil => exact absurd hsd (splitDot_ne_nil s)
    | cons x xs =>
      rw [hsd, List.getElem?_cons_zero] at hs
      injection hs with hx
      subst hx
      simp only [List.getElem?_cons_zero, ofOption_some, exc_bind_ok,
        ensureP_pos _ hlen2, hdec, hdes, exc_pure]
  refine ⟨main l hhead, main h ?_, fun rest => main _ ?_⟩
  · rw [splitDot_no_dot h hnodot, List.getElem?_cons_zero]
  · rw [splitDot_append_dot h rest hnodot, List.getElem?_cons_zero]

/-- Witness for C10: the header `"AQ"` decodes identically from the dot-free
string, from a two-segment string with garbage after the dot, and from the
canonical three-segment token. -/
theorem decode_metadata_first_segment_only_witness :
    Token.decode_metadata hdHS tok0 = .ok { jwt_header := hdrHS } ∧
    Token.decode_metadata hdHS ("AQ".toList) = .ok { jwt_header := hdrHS } ∧
    Token.decode_metadata hdHS ("AQ".toList ++ '.' :: "!not/base64!".toList)
      = .ok { jwt_header := hdrHS } :=
  ⟨(decode_metadata_first_segment_only hdHS tok0 ("AQ".toList) [1] hdrHS
      (by decide) (by decide) (by decide) (by decide)).1,
   (decode_metadata_first_segment_only hdHS tok0 ("AQ".toList) [1] hdrHS
      (by decide) (by decide) (by decide) (by decide)).2.1,
   (decode_metadata_first_segment_only hdHS tok0 ("AQ".toList) [1] hdrHS
      (by decide) (by decide) (by decide) (by decide)).2.2 ("!not/base64!".toList)⟩

/-! ## Claim C2 -/

/-- C2: concrete evaluation of both thumbprint setters. The SHA-1 setter on
40 hex characters stores the base64url re-encoding into its own
`certificate_sha1_thumbprint` field, and a base64url input of the wrong
decoded length is rejected with `InvalidCertThumprint`; but the SHA-256
setter on 64 hex characters stores its result into the
`certificate_sha1_thumbprint` field and leaves
`certificate_sha256_thumbprint` empty — the code bug the claim contradicts
(`token.rs` lines 242/249). -/
theorem thumbprint_setters_eval :
    (NewTokenMetadata.with_certificate_sha1_thumbprint
        (NewTokenMetadata.new ("ES256".toList) none) (List.replicate 40 '0')).map
        (fun m => (m.jwt_header.certificate_sha1_thumbprint,
          m.jwt_header.certificate_sha256_thumbprint))
      = .ok (some (b64Encode (List.replicate 20 0)), none) ∧
    NewTokenMetadata.with_certificate_sha1_thumbprint
        (NewTokenMetadata.new ("ES256".toList) none) ("AQ".toList)
      = .error (.jwt .InvalidCertThumprint) ∧
    (NewTokenMetadata.with_certificate_sha256_thumbprint
        (NewTokenMetadata.new ("ES256".toList) none) (List.replicate 64 '0')).map
        (fun m => (m.jwt_header.certificate_sha1_thumbprint,
          m.jwt_header.certificate_sha256_thumbprint))
      = .ok (some (b64Encode (List.replicate 32 0)), none) := by decide

end JwtSimple
